import Mathlib

/-
Verification of the chronosync-plane-api batch-import pipeline.

The definitions below are a shallow embedding of the TypeScript sources:
  - src/createTask.ts   (parseTaskData, priorityMap, statusMap, assigneeMap, directImport)
  - src/testImport.ts   (groupTasksByHierarchy, testImport two-phase orchestration)
  - src/deleteTasks.ts  (deleteAllTasks retry loop)
  - unnamed createTasksInPlane entry point (same two-phase structure, with a
    literal-state fallback policy; covered by the fallbackLiteral flag)

JavaScript string/null/undefined distinctions are modelled by the JVal type;
JS object lookups (last write wins) are modelled by prepend-and-find-first
association lists.
-/

namespace Chrono

/-- Model of a JS value that is either a string, null, or undefined. -/
inductive JVal where
  | undef : JVal
  | jnull : JVal
  | jstr : String → JVal
deriving DecidableEq, Repr

/-- JS truthiness for string-or-null-or-undefined values: the empty string,
null and undefined are falsy, any other string is truthy. -/
def JVal.truthy : JVal → Bool
  | .jstr s => !(s == "")
  | _ => false

/-- JS property-key coercion: undefined indexes as "undefined", null as "null". -/
def JVal.jsKey : JVal → String
  | .undef => "undefined"
  | .jnull => "null"
  | .jstr s => s

/-- JS object lookup on a model where assignment prepends (so the first match
is the most recent write, matching last-write-wins object semantics). -/
def recGet {α : Type} (m : List (String × α)) (k : String) : Option α :=
  (m.find? (fun p => p.1 == k)).map (fun p => p.2)

/-- Split a list of characters on a separator character, JS String.split
semantics for a one-character separator (empty input gives one empty field). -/
def splitOnCharAux (sep : Char) : List Char → List Char → List (List Char)
  | [], acc => [acc.reverse]
  | c :: rest, acc =>
    if c = sep then acc.reverse :: splitOnCharAux sep rest []
    else splitOnCharAux sep rest (c :: acc)

/-- JS s.split(sep) for a single-character separator. -/
def splitOnChar (sep : Char) (s : String) : List String :=
  (splitOnCharAux sep s.data []).map String.mk

/-- JS String.prototype.trim modelled on ASCII whitespace. -/
def trimChars (s : String) : String :=
  String.mk (((s.data.dropWhile Char.isWhitespace).reverse.dropWhile Char.isWhitespace).reverse)

/-- The five Plane priority enum values. -/
inductive Priority where
  | urgent | high | medium | low | none
deriving DecidableEq, Repr

/-- priorityMap from src/testImport.ts lines 29-35 (identical in the other
entry points). -/
def priorityMap : List (String × Priority) :=
  [("1", Priority.urgent), ("2", Priority.high), ("3", Priority.medium),
   ("4", Priority.low), ("null", Priority.none)]

/-- statusMap from src/testImport.ts lines 38-43. -/
def statusMap : List (String × String) :=
  [("taches à completer", "to_do"), ("taches en planning", "backlog"),
   ("taches terminé(e)s", "done"), ("taches fermé(e)s", "cancelled")]

/-- assigneeMap from src/testImport.ts lines 46-50. -/
def assigneeMap : List (String × String) :=
  [("Constant Suchet", "979222fc-93e1-4f1b-9eea-a2bf991f63d2"),
   ("Timothe SANDT", "d5a15f09-6955-4374-b6d5-7a1c98cb614a"),
   ("Tahra Amine", "33af4a89-f0ee-4f72-b7e5-3181c8b415f1")]

/-- The Task record of the import scripts. -/
structure Task where
  id : JVal
  name : JVal
  status : JVal
  dueDate : JVal
  startDate : JVal
  parentId : JVal
  assignees : List String
  priority : JVal
  timeEstimated : JVal
deriving DecidableEq, Repr

/-- The expression x && x !== '' ? x : null used for dueDate, startDate and
timeEstimated in parseTaskData. -/
def normOpt (v : JVal) : JVal :=
  if v.truthy then v else JVal.jnull

/-- Destructured column access: a column index past the end of the split
array is undefined in JS. -/
def colJ (cols : List String) (i : Nat) : JVal :=
  match cols.get? i with
  | some s => JVal.jstr s
  | Option.none => JVal.undef

/-- Content of the first regex match of \x5b(.*)\x5d after the opening
bracket: everything up to the last closing bracket, if one exists. -/
def beforeLastRBracket : List Char → Option (List Char)
  | [] => Option.none
  | c :: rest =>
    match beforeLastRBracket rest with
    | some t => some (c :: t)
    | Option.none => if c = ']' then some [] else Option.none

/-- Leftmost match of the bracket regex: scan to the first opening bracket
that has a closing bracket somewhere after it; capture greedily. -/
def bracketContent : List Char → Option (List Char)
  | [] => Option.none
  | c :: rest =>
    if c = '[' then
      match beforeLastRBracket rest with
      | some t => some t
      | Option.none => bracketContent rest
    else bracketContent rest

/-- Assignee-column parsing from parseTaskData: optional-chained regex match,
split on commas, trim, translate through assigneeMap, drop unknown names. -/
def parseAssignees (v : JVal) : List String :=
  match v with
  | JVal.jstr s =>
    match bracketContent s.data with
    | some content =>
      ((splitOnChar ',' (String.mk content)).map trimChars).filterMap
        (fun n => recGet assigneeMap n)
    | Option.none => []
  | _ => []

/-- One line of parseTaskData: split on semicolons and build a Task, with the
exact null/empty normalizations of the source. -/
def parseLine (line : String) : Task :=
  let cols := splitOnChar ';' line
  { id := colJ cols 0
    name := colJ cols 1
    status := colJ cols 2
    dueDate := normOpt (colJ cols 3)
    startDate := normOpt (colJ cols 4)
    parentId := if colJ cols 5 = JVal.jstr "null" then JVal.jnull else colJ cols 5
    assignees := parseAssignees (colJ cols 6)
    priority := colJ cols 7
    timeEstimated := normOpt (colJ cols 8) }

/-- The lines the parser iterates over: trim the input, split on newlines. -/
def linesOf (s : String) : List String :=
  splitOnChar '\n' (trimChars s)

/-- parseTaskData from src/createTask.ts lines 75-101 (identical in the
unnamed createTasksInPlane entry point). -/
def parseTaskData (csvData : String) : List Task :=
  (linesOf csvData).map parseLine

/-- Result of groupTasksByHierarchy. -/
structure Grouped where
  parentTasks : List Task
  childTasks : List Task
deriving DecidableEq, Repr

/-- groupTasksByHierarchy from src/testImport.ts lines 141-146: roots have a
strictly-null parent reference, everything else is a child. -/
def groupTasksByHierarchy (tasks : List Task) : Grouped :=
  { parentTasks := tasks.filter (fun t => decide (t.parentId = JVal.jnull))
    childTasks := tasks.filter (fun t => !(decide (t.parentId = JVal.jnull))) }

/-- The priority translation priorityMap[task.priority || 'null'] used by all
three entry points when building the create payload. -/
def translatePriority (p : JVal) : Option Priority :=
  recGet priorityMap (if p.truthy then p.jsKey else "null")

/-- statusMap[task.status] || 'backlog' from the orchestrator loops. -/
def statusKeyOf (status : JVal) : String :=
  match recGet statusMap status.jsKey with
  | some k => if k = "" then "backlog" else k
  | Option.none => "backlog"

/-- Classified error of a create call (the orchestrator catches all kinds
alike; the kind matters only to state what is and is not retried). -/
inductive CreateErr where
  | rateLimited (retryAfter : Option String)
  | other
deriving DecidableEq, Repr

/-- Result of one createIssue call against the remote collaborator. -/
inductive CreateRes where
  | ok (id : String)
  | err (e : CreateErr)
deriving DecidableEq, Repr

/-- Environment of one import run: the state-group-to-id mapping built from
the fetched state catalog, the entry-point policy for unresolvable states
(testImport skips, createTasksInPlane falls back to the literal group key),
and an oracle giving the result of the n-th createIssue call of the run. -/
structure ImportEnv where
  stateMapping : List (String × String)
  fallbackLiteral : Bool
  create : Nat → CreateRes

/-- Per-record outcome of the orchestrator control flow. -/
inductive Outcome where
  | created (remoteId : String)
  | skippedNoState
  | skippedMissingParent
  | failed (e : CreateErr)
deriving DecidableEq, Repr

/-- One createIssue attempt as observed in the run trace. -/
structure Event where
  task : Task
  isChild : Bool
  parent : Option String
  res : CreateRes
deriving DecidableEq, Repr

/-- Mutable state threaded through the orchestrator loops: number of create
calls made, taskIdMap (local id key to remote id, most recent write first),
and the createdTasks summary list (name key and remote id, in push order). -/
structure RunState where
  calls : Nat
  taskIdMap : List (String × String)
  createdTasks : List (String × String)
deriving Repr

/-- State at the start of a run. -/
def initState : RunState := { calls := 0, taskIdMap := [], createdTasks := [] }

/-- State-id resolution: statusKey := statusMap[task.status] || 'backlog',
then stateId := stateMapping[statusKey] with the falsy check of testImport;
with fallbackLiteral the literal group key is used instead of skipping. -/
def resolveState (env : ImportEnv) (status : JVal) : Option String :=
  let key := statusKeyOf status
  match recGet env.stateMapping key with
  | some sid =>
    if sid = "" then (if env.fallbackLiteral then some key else Option.none)
    else some sid
  | Option.none => if env.fallbackLiteral then some key else Option.none

/-- One createIssue call: on success the created id is recorded in taskIdMap
under the task id key and pushed on the createdTasks summary; on error the
catch block records nothing and the loop continues. -/
def attemptCreate (env : ImportEnv) (st : RunState) (t : Task) (isChild : Bool)
    (parent : Option String) : Outcome × List Event × RunState :=
  match env.create st.calls with
  | CreateRes.ok rid =>
    (Outcome.created rid,
     [{ task := t, isChild := isChild, parent := parent, res := CreateRes.ok rid }],
     { calls := st.calls + 1
       taskIdMap := (t.id.jsKey, rid) :: st.taskIdMap
       createdTasks := st.createdTasks ++ [(t.name.jsKey, rid)] })
  | CreateRes.err e =>
    (Outcome.failed e,
     [{ task := t, isChild := isChild, parent := parent, res := CreateRes.err e }],
     { st with calls := st.calls + 1 })

/-- One loop body of the orchestrator (src/testImport.ts lines 210-275): a
root checks only the state; a child first checks taskIdMap[task.parentId]
(skipping with a missing-parent warning when the lookup is falsy), then the
state, then creates with the parent remote id attached. -/
def processOne (env : ImportEnv) (isChild : Bool) (st : RunState) (t : Task) :
    Outcome × List Event × RunState :=
  if isChild then
    match recGet st.taskIdMap t.parentId.jsKey with
    | Option.none => (Outcome.skippedMissingParent, [], st)
    | some pid =>
      if pid = "" then (Outcome.skippedMissingParent, [], st)
      else
        match resolveState env t.status with
        | Option.none => (Outcome.skippedNoState, [], st)
        | some _ => attemptCreate env st t true (some pid)
  else
    match resolveState env t.status with
    | Option.none => (Outcome.skippedNoState, [], st)
    | some _ => attemptCreate env st t false Option.none

/-- One for-loop of the orchestrator over a task list, accumulating per-task
outcomes, attempt events and the evolving run state. -/
def runPass (env : ImportEnv) (isChild : Bool) :
    RunState → List Task → List (Task × Outcome) × List Event × RunState
  | st, [] => ([], [], st)
  | st, t :: ts =>
    let r := processOne env isChild st t
    let rest := runPass env isChild r.2.2 ts
    ((t, r.1) :: rest.1, r.2.1 ++ rest.2.1, rest.2.2)

/-- Result of a whole import run. -/
structure RunResult where
  outcomes : List (Task × Outcome)
  events : List Event
  final : RunState
deriving Repr

/-- The two-phase import orchestration of testImport (and createTasksInPlane):
group by hierarchy, process all roots, then process all children against the
taskIdMap built so far. -/
def runImport (env : ImportEnv) (tasks : List Task) : RunResult :=
  let g := groupTasksByHierarchy tasks
  let r1 := runPass env false initState g.parentTasks
  let r2 := runPass env true r1.2.2 g.childTasks
  { outcomes := r1.1 ++ r2.1, events := r1.2.1 ++ r2.2.1, final := r2.2.2 }

/-- MAX_RETRIES from src/deleteTasks.ts line 8. -/
def MAX_RETRIES : Nat := 3

/-- Longest digit prefix of a character list. -/
def digitsPrefix (cs : List Char) : List Char :=
  cs.takeWhile (fun c => c.isDigit)

/-- Decimal value of a digit list. -/
def digitsToNat (ds : List Char) : Nat :=
  ds.foldl (fun a c => a * 10 + (c.toNat - 48)) 0

/-- JS parseInt(s, 10): skip leading whitespace, optional sign, longest digit
prefix; no digits means NaN, modelled as Option.none. -/
def jsParseInt (s : String) : Option Int :=
  let cs := s.data.dropWhile (fun c => c.isWhitespace)
  let p : Int × List Char :=
    match cs with
    | '-' :: r => (-1, r)
    | '+' :: r => (1, r)
    | _ => (1, cs)
  let ds := digitsPrefix p.2
  if ds.isEmpty then Option.none else some (p.1 * (digitsToNat ds : Int))

/-- Result of one deleteIssue attempt against the remote collaborator; a
rate limit carries the optional retry-after header value. -/
inductive AttemptOutcome where
  | ok
  | rateLimited (retryAfter : Option String)
  | otherError
deriving DecidableEq, Repr

/-- Wait computation of the retry loop, in milliseconds: the parsed header
when truthy and a valid integer, else the 5 second default, times 1000, plus
the 1000 ms RETRY_AFTER_BUFFER_MS. -/
def waitMsOf (hdr : Option String) : Int :=
  let secs : Int :=
    match hdr with
    | some s =>
      if s = "" then 5
      else
        match jsParseInt s with
        | some n => n
        | Option.none => 5
    | Option.none => 5
  secs * 1000 + 1000

/-- Trace of the per-issue retry loop: number of delete attempts made, waits
performed (in order, in ms), and whether the loop ended in success. -/
structure DelTrace where
  attempts : Nat
  waits : List Int
  success : Bool
deriving DecidableEq, Repr

/-- The while loop of deleteAllTasks (src/deleteTasks.ts lines 51-99) for one
issue: attempt, on 429 increment retries and either break at MAX_RETRIES or
wait and retry, on any other error break immediately. The oracle gives the
result of the attempt made with the given current retries count. -/
def delGo (oracle : Nat → AttemptOutcome) : Nat → Nat → List Int → DelTrace
  | 0, retries, waits => { attempts := retries, waits := waits.reverse, success := false }
  | fuel + 1, retries, waits =>
    match oracle retries with
    | AttemptOutcome.ok =>
      { attempts := retries + 1, waits := waits.reverse, success := true }
    | AttemptOutcome.rateLimited hdr =>
      if MAX_RETRIES ≤ retries + 1 then
        { attempts := retries + 1, waits := waits.reverse, success := false }
      else delGo oracle fuel (retries + 1) (waitMsOf hdr :: waits)
    | AttemptOutcome.otherError =>
      { attempts := retries + 1, waits := waits.reverse, success := false }

/-- The whole retry loop for one issue, starting at zero retries. -/
def deleteOneIssue (oracle : Nat → AttemptOutcome) : DelTrace :=
  delGo oracle MAX_RETRIES 0 []

/-- Local id keys recorded by a successful attempt event. -/
def okKeysOf (e : Event) : List String :=
  match e.res with
  | CreateRes.ok _ => [e.task.id.jsKey]
  | CreateRes.err _ => []

/-- Local id keys of all successful creations in a trace, in trace order. -/
def okKeys : List Event → List String
  | [] => []
  | e :: rest => okKeysOf e ++ okKeys rest

/-- Checks that once a child attempt occurs in the trace, every later attempt
is also a child attempt (so every root attempt precedes every child attempt). -/
def noRootAfterChild : List Event → Bool
  | [] => true
  | e :: rest => if e.isChild then rest.all (fun x => x.isChild) else noRootAfterChild rest

/-- Checks that every child attempt in the trace names a parent local id that
was already successfully created strictly earlier (seen accumulates the local
ids created so far). -/
def parentSeen : List String → List Event → Bool
  | _, [] => true
  | seen, e :: rest =>
    ((!e.isChild) || decide (e.task.parentId.jsKey ∈ seen))
      && parentSeen (seen ++ okKeysOf e) rest

/-- A successful JS object lookup means the key is among the stored keys. -/
theorem recGet_mem_keys {α : Type} {m : List (String × α)} {k : String} {v : α}
    (h : recGet m k = some v) : k ∈ m.map Prod.fst := by
  unfold recGet at h
  rcases Option.map_eq_some'.mp h with ⟨p, hfind, _⟩
  have hp := List.find?_some hfind
  simp only [beq_iff_eq] at hp
  have hm : p ∈ m := List.mem_of_find?_eq_some hfind
  exact hp ▸ List.mem_map_of_mem Prod.fst hm

/-- Exhaustive case analysis of one orchestrator loop body. -/
theorem processOne_cases (env : ImportEnv) (ic : Bool) (st : RunState) (t : Task) :
    (processOne env ic st t = (Outcome.skippedMissingParent, [], st) ∧ ic = true) ∨
    processOne env ic st t = (Outcome.skippedNoState, [], st) ∨
    (∃ par rid,
      processOne env ic st t =
        (Outcome.created rid,
         [{ task := t, isChild := ic, parent := par, res := CreateRes.ok rid }],
         { calls := st.calls + 1
           taskIdMap := (t.id.jsKey, rid) :: st.taskIdMap
           createdTasks := st.createdTasks ++ [(t.name.jsKey, rid)] }) ∧
      env.create st.calls = CreateRes.ok rid ∧
      (ic = true → ∃ pid, par = some pid ∧
        recGet st.taskIdMap t.parentId.jsKey = some pid ∧ pid ≠ "") ∧
      (ic = false → par = Option.none)) ∨
    (∃ par e,
      processOne env ic st t =
        (Outcome.failed e,
         [{ task := t, isChild := ic, parent := par, res := CreateRes.err e }],
         { st with calls := st.calls + 1 }) ∧
      env.create st.calls = CreateRes.err e ∧
      (ic = true → ∃ pid, par = some pid ∧
        recGet st.taskIdMap t.parentId.jsKey = some pid ∧ pid ≠ "")) := by
  cases ic with
  | false =>
    simp only [processOne, Bool.false_eq_true, if_false]
    cases hrs : resolveState env t.status with
    | none => simp
    | some sid =>
      simp only []
      cases hc : env.create st.calls with
      | ok rid =>
        refine Or.inr (Or.inr (Or.inl ⟨Option.none, rid, ?_, ?_, ?_, ?_⟩)) <;>
          simp [attemptCreate, hc]
      | err e =>
        refine Or.inr (Or.inr (Or.inr ⟨Option.none, e, ?_, ?_, ?_⟩)) <;>
          simp [attemptCreate, hc]
  | true =>
    simp only [processOne, if_true]
    cases hg : recGet st.taskIdMap t.parentId.jsKey with
    | none => simp
    | some pid =>
      simp only []
      by_cases hpid : pid = ""
      · simp [hpid]
      · simp only [hpid, if_false, if_neg hpid]
        cases hrs : resolveState env t.status with
        | none => simp
        | some sid =>
          simp only []
          cases hc : env.create st.calls with
          | ok rid =>
            refine Or.inr (Or.inr (Or.inl ⟨some pid, rid, ?_, ?_, ?_, ?_⟩)) <;>
              simp [attemptCreate, hc, hg, hpid]
          | err e =>
            refine Or.inr (Or.inr (Or.inr ⟨some pid, e, ?_, ?_, ?_⟩)) <;>
              simp [attemptCreate, hc, hg, hpid]

/-- An attempt event of a loop body is about the processed task, tagged with
the phase of the pass. -/
theorem processOne_event_facts {env : ImportEnv} {ic : Bool} {st : RunState} {t : Task}
    {e : Event} (he : e ∈ (processOne env ic st t).2.1) :
    e.task = t ∧ e.isChild = ic := by
  rcases processOne_cases env ic st t with ⟨h, _⟩ | h | ⟨par, rid, h, _⟩ | ⟨par, er, h, _⟩ <;>
    rw [h] at he <;> simp at he <;> simp [he]

/-- A loop body adds at most the processed task's id key to taskIdMap. -/
theorem processOne_mapKeys {env : ImportEnv} {ic : Bool} {st : RunState} {t : Task}
    {k : String} (hk : k ∈ ((processOne env ic st t).2.2.taskIdMap.map Prod.fst)) :
    k = t.id.jsKey ∨ k ∈ st.taskIdMap.map Prod.fst := by
  rcases processOne_cases env ic st t with ⟨h, _⟩ | h | ⟨par, rid, h, _⟩ | ⟨par, er, h, _⟩ <;>
    rw [h] at hk <;> simp at hk <;> simp [hk]

/-- A loop body makes at most one create call. -/
theorem processOne_calls_le (env : ImportEnv) (ic : Bool) (st : RunState) (t : Task) :
    (processOne env ic st t).2.2.calls ≤ st.calls + 1 := by
  rcases processOne_cases env ic st t with ⟨h, _⟩ | h | ⟨par, rid, h, _⟩ | ⟨par, er, h, _⟩ <;>
    rw [h] <;> simp

/-- The createdTasks summary only grows. -/
theorem processOne_created_mono (env : ImportEnv) (ic : Bool) (st : RunState) (t : Task) :
    ∃ xs, (processOne env ic st t).2.2.createdTasks = st.createdTasks ++ xs := by
  rcases processOne_cases env ic st t with ⟨h, _⟩ | h | ⟨par, rid, h, _⟩ | ⟨par, er, h, _⟩ <;>
    rw [h]
  · exact ⟨[], by simp⟩
  · exact ⟨[], by simp⟩
  · exact ⟨[(t.name.jsKey, rid)], rfl⟩
  · exact ⟨[], by simp⟩

/-- A failed record leaves taskIdMap and the createdTasks summary untouched:
only the call counter advances, and the error is the create call's error. -/
theorem processOne_failed {env : ImportEnv} {ic : Bool} {st : RunState} {t : Task}
    {e : CreateErr} (h : (processOne env ic st t).1 = Outcome.failed e) :
    (processOne env ic st t).2.2 = { st with calls := st.calls + 1 } ∧
    env.create st.calls = CreateRes.err e := by
  rcases processOne_cases env ic st t with ⟨hh, _⟩ | hh | ⟨par, rid, hh, _⟩ | ⟨par, er, hh, hc, _⟩ <;>
    rw [hh] at h ⊢ <;> simp_all

/-- The outcome list of one pass lists exactly the processed tasks, in order. -/
theorem runPass_fst (env : ImportEnv) (ic : Bool) (ts : List Task) :
    ∀ st, ((runPass env ic st ts).1).map Prod.fst = ts := by
  induction ts with
  | nil => intro st; simp [runPass]
  | cons t ts ih => intro st; simp [runPass, ih]

/-- Every attempt event of a pass is about one of the pass's tasks and is
tagged with the pass's phase. -/
theorem runPass_event_facts (env : ImportEnv) (ic : Bool) (ts : List Task) :
    ∀ st, ∀ e ∈ (runPass env ic st ts).2.1, e.task ∈ ts ∧ e.isChild = ic := by
  induction ts with
  | nil => intro st e he; simp [runPass] at he
  | cons t ts ih =>
    intro st e he
    simp only [runPass, List.mem_append] at he
    rcases he with he | he
    · rcases processOne_event_facts he with ⟨h1, h2⟩
      exact ⟨by simp [h1], h2⟩
    · rcases ih _ e he with ⟨h1, h2⟩
      exact ⟨by simp [h1], h2⟩

/-- createdTasks grows monotonically through a pass: no rollback ever. -/
theorem runPass_created_mono (env : ImportEnv) (ic : Bool) (ts : List Task) :
    ∀ st, ∃ xs, (runPass env ic st ts).2.2.createdTasks = st.createdTasks ++ xs := by
  induction ts with
  | nil => intro st; exact ⟨[], by simp [runPass]⟩
  | cons t ts ih =>
    intro st
    obtain ⟨xs1, h1⟩ := processOne_created_mono env ic st t
    obtain ⟨xs2, h2⟩ := ih (processOne env ic st t).2.2
    exact ⟨xs1 ++ xs2, by simp [runPass, h2, h1, List.append_assoc]⟩

/-- taskIdMap keys after a pass come from the pass's tasks or were already
present. -/
theorem runPass_mapKeys (env : ImportEnv) (ic : Bool) (ts : List Task) :
    ∀ st k, k ∈ ((runPass env ic st ts).2.2.taskIdMap.map Prod.fst) →
      k ∈ ts.map (fun x => x.id.jsKey) ∨ k ∈ st.taskIdMap.map Prod.fst := by
  induction ts with
  | nil => intro st k hk; simp [runPass] at hk; simp [hk]
  | cons t ts ih =>
    intro st k hk
    simp only [runPass] at hk
    rcases ih _ k hk with h | h
    · exact Or.inl (by simp [h])
    · rcases processOne_mapKeys h with h2 | h2
      · exact Or.inl (by simp [h2])
      · exact Or.inr h2

/-- okKeys distributes over trace concatenation. -/
theorem okKeys_append (a b : List Event) : okKeys (a ++ b) = okKeys a ++ okKeys b := by
  induction a with
  | nil => simp [okKeys]
  | cons e a ih => simp [okKeys, ih]

/-- parentSeen splits across concatenation, the seen set accumulating. -/
theorem parentSeen_append (a b : List Event) :
    ∀ seen, parentSeen seen (a ++ b)
      = (parentSeen seen a && parentSeen (seen ++ okKeys a) b) := by
  induction a with
  | nil => intro seen; simp [parentSeen, okKeys]
  | cons e a ih =>
    intro seen
    simp [parentSeen, okKeys, ih, List.append_assoc, Bool.and_assoc]

/-- A trace of pure root attempts trivially satisfies parentSeen. -/
theorem parentSeen_roots (a : List Event) (ha : ∀ e ∈ a, e.isChild = false) :
    ∀ seen, parentSeen seen a = true := by
  induction a with
  | nil => intro seen; simp [parentSeen]
  | cons e a ih =>
    intro seen
    simp only [parentSeen, ha e (List.mem_cons_self e a), Bool.not_false, Bool.true_or,
      Bool.true_and]
    exact ih (fun x hx => ha x (List.mem_cons_of_mem e hx)) _

/-- A trace of pure child attempts has no root attempt after a child one. -/
theorem noRootAfterChild_children (b : List Event) (hb : ∀ e ∈ b, e.isChild = true) :
    noRootAfterChild b = true := by
  cases b with
  | nil => simp [noRootAfterChild]
  | cons e b =>
    simp only [noRootAfterChild, hb e (List.mem_cons_self e b), if_true, List.all_eq_true]
    exact fun x hx => hb x (List.mem_cons_of_mem e hx)

/-- Root attempts followed by child attempts never put a root after a child. -/
theorem noRootAfterChild_append (a b : List Event) (ha : ∀ e ∈ a, e.isChild = false)
    (hb : ∀ e ∈ b, e.isChild = true) : noRootAfterChild (a ++ b) = true := by
  induction a with
  | nil => simpa using noRootAfterChild_children b hb
  | cons e a ih =>
    simp only [List.cons_append, noRootAfterChild, ha e (List.mem_cons_self e a),
      Bool.false_eq_true, if_false]
    exact ih (fun x hx => ha x (List.mem_cons_of_mem e hx))

/-- One loop body preserves the parentSeen invariant: its events check out
against seen, and the updated map's keys are covered by seen plus the new
successful keys. -/
theorem processOne_parentSeen (env : ImportEnv) (ic : Bool) (st : RunState) (t : Task)
    (seen : List String) (hinv : ∀ k ∈ st.taskIdMap.map Prod.fst, k ∈ seen) :
    parentSeen seen (processOne env ic st t).2.1 = true ∧
    (∀ k ∈ ((processOne env ic st t).2.2.taskIdMap.map Prod.fst),
      k ∈ seen ++ okKeys (processOne env ic st t).2.1) := by
  rcases processOne_cases env ic st t with ⟨h, _⟩ | h |
    ⟨par, rid, h, _, hch, _⟩ | ⟨par, er, h, _, hch⟩ <;> rw [h]
  · exact ⟨by simp [parentSeen], fun k hk => by simp [okKeys]; exact hinv k hk⟩
  · exact ⟨by simp [parentSeen], fun k hk => by simp [okKeys]; exact hinv k hk⟩
  · constructor
    · simp only [parentSeen, okKeysOf, Bool.and_true]
      cases ic with
      | false => simp
      | true =>
        obtain ⟨pid, _, hg, _⟩ := hch rfl
        have := recGet_mem_keys hg
        simp [hinv _ this]
    · intro k hk
      simp only [List.map_cons, List.mem_cons] at hk
      rcases hk with hk | hk
      · simp [okKeys, okKeysOf, hk]
      · simp only [List.mem_append]
        exact Or.inl (hinv k hk)
  · constructor
    · simp only [parentSeen, okKeysOf, Bool.and_true]
      cases ic with
      | false => simp
      | true =>
        obtain ⟨pid, _, hg, _⟩ := hch rfl
        have := recGet_mem_keys hg
        simp [hinv _ this]
    · intro k hk
      simp only [List.mem_append]
      exact Or.inl (hinv k hk)

/-- A whole pass preserves the parentSeen invariant. -/
theorem runPass_parentSeen (env : ImportEnv) (ic : Bool) (ts : List Task) :
    ∀ st seen, (∀ k ∈ st.taskIdMap.map Prod.fst, k ∈ seen) →
      parentSeen seen (runPass env ic st ts).2.1 = true ∧
      (∀ k ∈ ((runPass env ic st ts).2.2.taskIdMap.map Prod.fst),
        k ∈ seen ++ okKeys (runPass env ic st ts).2.1) := by
  induction ts with
  | nil =>
    intro st seen hinv
    refine ⟨by simp [runPass, parentSeen], fun k hk => ?_⟩
    simp only [runPass] at hk ⊢
    simp [okKeys]
    exact hinv k hk
  | cons t ts ih =>
    intro st seen hinv
    obtain ⟨h1, h2⟩ := processOne_parentSeen env ic st t seen hinv
    obtain ⟨h3, h4⟩ := ih (processOne env ic st t).2.2 (seen ++ okKeys (processOne env ic st t).2.1) h2
    constructor
    · simp only [runPass, parentSeen_append, h1, h3, Bool.and_self]
    · intro k hk
      simp only [runPass] at hk ⊢
      have := h4 k hk
      simpa [okKeys_append, List.append_assoc] using this

/-- Claim C1: in every import run all root attempts happen before any child
attempt (the trace never shows a root attempt after a child attempt), and
every child attempt names a declared parent whose creation already succeeded
strictly earlier in the trace — so a child issue is never created before its
declared parent was attempted. -/
theorem roots_before_children :
    ∀ (env : ImportEnv) (tasks : List Task),
      noRootAfterChild (runImport env tasks).events = true ∧
      parentSeen [] (runImport env tasks).events = true := by
  intro env tasks
  simp only [runImport]
  have hroots := runPass_event_facts env false (groupTasksByHierarchy tasks).parentTasks initState
  have hchild := runPass_event_facts env true (groupTasksByHierarchy tasks).childTasks
    (runPass env false initState (groupTasksByHierarchy tasks).parentTasks).2.2
  constructor
  · exact noRootAfterChild_append _ _ (fun e he => (hroots e he).2) (fun e he => (hchild e he).2)
  · rw [parentSeen_append]
    have hp1 : parentSeen [] (runPass env false initState
        (groupTasksByHierarchy tasks).parentTasks).2.1 = true :=
      parentSeen_roots _ (fun e he => (hroots e he).2) []
    have hbase := runPass_parentSeen env false (groupTasksByHierarchy tasks).parentTasks
      initState [] (by simp [initState])
    have hp2 := runPass_parentSeen env true (groupTasksByHierarchy tasks).childTasks
      (runPass env false initState (groupTasksByHierarchy tasks).parentTasks).2.2
      ([] ++ okKeys (runPass env false initState
        (groupTasksByHierarchy tasks).parentTasks).2.1) hbase.2
    have hp2' := hp2.1
    simp only [List.nil_append] at hp2'
    simp [hp1, hp2']

/-- Claim C7: every import run produces exactly one outcome per input record:
the outcome list has the input's length and its record components are a
permutation of the input batch (roots first, then children). -/
theorem one_outcome_per_record :
    ∀ (env : ImportEnv) (tasks : List Task),
      (runImport env tasks).outcomes.length = tasks.length ∧
      ((runImport env tasks).outcomes.map Prod.fst).Perm tasks := by
  intro env tasks
  have hperm : ((groupTasksByHierarchy tasks).parentTasks
      ++ (groupTasksByHierarchy tasks).childTasks).Perm tasks := by
    simp only [groupTasksByHierarchy]
    exact List.filter_append_perm _ tasks
  have hmap : (runImport env tasks).outcomes.map Prod.fst
      = (groupTasksByHierarchy tasks).parentTasks ++ (groupTasksByHierarchy tasks).childTasks := by
    simp only [runImport, List.map_append, runPass_fst]
  constructor
  · calc (runImport env tasks).outcomes.length
        = ((runImport env tasks).outcomes.map Prod.fst).length := (List.length_map _ _).symm
      _ = tasks.length := by rw [hmap]; exact hperm.length_eq
  · rw [hmap]; exact hperm

/-- Claim C2, counterexample: the unknown priority code 5 translates to a JS
undefined payload field (no priority), not to the enum value none. -/
theorem priority_unknown_code_cex :
    translatePriority (JVal.jstr "5") = Option.none ∧
    translatePriority (JVal.jstr "5") ≠ some Priority.none := by
  constructor <;> decide

/-- Claim C2 (amended): codes 1,2,3,4 translate to urgent, high, medium, low;
an absent, null, empty or literal-null priority translates to none; any other
code yields an absent priority field (JS undefined), never an exception. -/
theorem priority_translation :
    translatePriority (JVal.jstr "1") = some Priority.urgent ∧
    translatePriority (JVal.jstr "2") = some Priority.high ∧
    translatePriority (JVal.jstr "3") = some Priority.medium ∧
    translatePriority (JVal.jstr "4") = some Priority.low ∧
    translatePriority JVal.jnull = some Priority.none ∧
    translatePriority JVal.undef = some Priority.none ∧
    translatePriority (JVal.jstr "") = some Priority.none ∧
    translatePriority (JVal.jstr "null") = some Priority.none ∧
    (∀ s : String, s ∉ (["1", "2", "3", "4", "null", ""] : List String) →
      translatePriority (JVal.jstr s) = Option.none) := by
  refine ⟨by decide, by decide, by decide, by decide, by decide, by decide, by decide,
    by decide, fun s hs => ?_⟩
  simp only [List.mem_cons, List.not_mem_nil, or_false, not_or] at hs
  obtain ⟨h1, h2, h3, h4, h5, h6⟩ := hs
  have e1 : ("1" == s) = false := beq_eq_false_iff_ne.mpr (Ne.symm h1)
  have e2 : ("2" == s) = false := beq_eq_false_iff_ne.mpr (Ne.symm h2)
  have e3 : ("3" == s) = false := beq_eq_false_iff_ne.mpr (Ne.symm h3)
  have e4 : ("4" == s) = false := beq_eq_false_iff_ne.mpr (Ne.symm h4)
  have e5 : ("null" == s) = false := beq_eq_false_iff_ne.mpr (Ne.symm h5)
  have e6 : (s == "") = false := beq_eq_false_iff_ne.mpr h6
  simp [translatePriority, JVal.truthy, JVal.jsKey, recGet, priorityMap, List.find?,
    e1, e2, e3, e4, e5, e6]

/-- Witness for the amended C2 theorem at the concrete unknown code 5. -/
theorem priority_translation_witness :
    translatePriority (JVal.jstr "5") = Option.none :=
  priority_translation.2.2.2.2.2.2.2.2 "5" (by decide)

/-- Claim C8, counterexample: a line whose dueDate, startDate and
timeEstimated columns hold the literal token null parses them as the string
null, not as absent. -/
theorem null_token_preserved_cex :
    (parseTaskData "a;b;c;null;null;null;[];1;null").map (fun t => t.dueDate)
        = [JVal.jstr "null"] ∧
    (parseTaskData "a;b;c;null;null;null;[];1;null").map (fun t => t.startDate)
        = [JVal.jstr "null"] ∧
    (parseTaskData "a;b;c;null;null;null;[];1;null").map (fun t => t.timeEstimated)
        = [JVal.jstr "null"] ∧
    JVal.jstr "null" ≠ JVal.jnull := by
  refine ⟨by decide, by decide, by decide, by decide⟩

/-- Claim C8 (amended): an empty-string or missing dueDate, startDate or
timeEstimated column parses as absent, but the literal token null is carried
through as the string null for those columns; only the parentId column maps
the literal null to absent. -/
theorem absent_field_normalization :
    (∀ v : JVal, v.truthy = false → normOpt v = JVal.jnull) ∧
    normOpt (JVal.jstr "") = JVal.jnull ∧
    normOpt JVal.undef = JVal.jnull ∧
    normOpt JVal.jnull = JVal.jnull ∧
    normOpt (JVal.jstr "null") = JVal.jstr "null" ∧
    (∀ line : String,
      (parseLine line).dueDate = normOpt (colJ (splitOnChar ';' line) 3) ∧
      (parseLine line).startDate = normOpt (colJ (splitOnChar ';' line) 4) ∧
      (parseLine line).timeEstimated = normOpt (colJ (splitOnChar ';' line) 8) ∧
      (parseLine line).parentId =
        (if colJ (splitOnChar ';' line) 5 = JVal.jstr "null" then JVal.jnull
         else colJ (splitOnChar ';' line) 5)) := by
  refine ⟨fun v hv => ?_, by decide, by decide, by decide, by decide,
    fun line => ⟨rfl, rfl, rfl, rfl⟩⟩
  simp [normOpt, hv]

/-- Witness for the amended C8 theorem at the concrete falsy empty string. -/
theorem absent_field_normalization_witness :
    normOpt (JVal.jstr "") = JVal.jnull :=
  absent_field_normalization.1 (JVal.jstr "") (by decide)

/-- Claim C9, counterexample: an input with an interior empty line yields
three records for two non-empty lines, so the parser does not produce exactly
one record per non-empty line. -/
theorem record_count_cex :
    (parseTaskData "a\n\nb").length = 3 ∧
    ((linesOf "a\n\nb").filter (fun l => !(l == ""))).length = 2 ∧
    (parseTaskData "a\n\nb").length
      ≠ ((linesOf "a\n\nb").filter (fun l => !(l == ""))).length := by
  refine ⟨by decide, by decide, by decide⟩

/-- Claim C9 (amended): the parser is total and yields exactly one record per
line of the newline-split trimmed input, empty interior lines included; a
line with too few semicolon-separated columns still yields a record whose
missing optional fields are absent and whose parent reference is the JS
undefined value, so hierarchy grouping classifies it as a child. -/
theorem parse_total_record_per_line :
    (∀ s : String, (parseTaskData s).length = (linesOf s).length) ∧
    (∀ line : String, (splitOnChar ';' line).length ≤ 5 →
      (parseLine line).parentId = JVal.undef) ∧
    (∀ line : String, (splitOnChar ';' line).length ≤ 3 →
      (parseLine line).dueDate = JVal.jnull ∧ (parseLine line).startDate = JVal.jnull ∧
      (parseLine line).timeEstimated = JVal.jnull ∧ (parseLine line).assignees = [] ∧
      (parseLine line).priority = JVal.undef) ∧
    (∀ (tasks : List Task) (t : Task), t ∈ tasks → t.parentId ≠ JVal.jnull →
      t ∈ (groupTasksByHierarchy tasks).childTasks) := by
  refine ⟨fun s => by simp [parseTaskData], fun line h => ?_, fun line h => ?_,
    fun tasks t ht hne => ?_⟩
  · have h5 : (splitOnChar ';' line)[5]? = Option.none := List.getElem?_eq_none h
    simp [parseLine, colJ, h5]
  · have h3 : (splitOnChar ';' line)[3]? = Option.none := List.getElem?_eq_none h
    have h4 : (splitOnChar ';' line)[4]? = Option.none :=
      List.getElem?_eq_none (le_trans h (by norm_num))
    have h6 : (splitOnChar ';' line)[6]? = Option.none :=
      List.getElem?_eq_none (le_trans h (by norm_num))
    have h7 : (splitOnChar ';' line)[7]? = Option.none :=
      List.getElem?_eq_none (le_trans h (by norm_num))
    have h8 : (splitOnChar ';' line)[8]? = Option.none :=
      List.getElem?_eq_none (le_trans h (by norm_num))
    simp [parseLine, colJ, h3, h4, h6, h7, h8, normOpt, JVal.truthy, parseAssignees]
  · simp [groupTasksByHierarchy, List.mem_filter, ht, hne]

/-- Witness for the amended C9 theorem at a concrete two-column line. -/
theorem parse_total_record_per_line_witness :
    (parseLine "x;y").parentId = JVal.undef ∧
    (parseTaskData "x;y").length = (linesOf "x;y").length :=
  ⟨parse_total_record_per_line.2.1 "x;y" (by decide),
   parse_total_record_per_line.1 "x;y"⟩

/-- A key appears in okKeys only through a successful attempt event carrying
a task with that id key. -/
theorem okKeys_mem {k : String} : ∀ tr : List Event, k ∈ okKeys tr →
    ∃ e ∈ tr, e.task.id.jsKey = k ∧ ∃ r, e.res = CreateRes.ok r := by
  intro tr
  induction tr with
  | nil => intro h; simp [okKeys] at h
  | cons e tr ih =>
    intro h
    simp only [okKeys, List.mem_append] at h
    rcases h with h | h
    · rcases hres : e.res with r | er
      · simp only [okKeysOf, hres] at h
        simp at h
        exact ⟨e, List.mem_cons_self e tr, h.symm, r, hres⟩
      · simp [okKeysOf, hres] at h
    · obtain ⟨f, hf, hk, hr⟩ := ih h
      exact ⟨f, List.mem_cons_of_mem e hf, hk, hr⟩

/-- In the child pass, a record whose parent key is neither among the keys
already covering the map (S) nor successfully created during the rest of the
pass is always skipped without any create call, wherever it sits. -/
theorem runPass_skip_unseen (env : ImportEnv) (ts : List Task) (t : Task) :
    ∀ (st : RunState) (S : List String),
      (∀ k ∈ st.taskIdMap.map Prod.fst, k ∈ S) →
      t.parentId.jsKey ∉ S →
      t.parentId.jsKey ∉ okKeys ((runPass env true st ts).2.1) →
      (∀ p ∈ (runPass env true st ts).1, p.1 = t → p.2 = Outcome.skippedMissingParent) ∧
      (∀ e ∈ (runPass env true st ts).2.1, e.task ≠ t) := by
  induction ts with
  | nil =>
    intro st S _ _ _
    constructor <;> intro x hx <;> simp [runPass] at hx
  | cons x ts ih =>
    intro st S hinv hS hok
    have hsplit : t.parentId.jsKey ∉ okKeys (processOne env true st x).2.1 ∧
        t.parentId.jsKey ∉ okKeys (runPass env true (processOne env true st x).2.2 ts).2.1 := by
      simp only [runPass, okKeys_append, List.mem_append, not_or] at hok
      exact hok
    have hinv' := (processOne_parentSeen env true st x S hinv).2
    have hS' : t.parentId.jsKey ∉ S ++ okKeys (processOne env true st x).2.1 := by
      simp only [List.mem_append, not_or]
      exact ⟨hS, hsplit.1⟩
    obtain ⟨ih1, ih2⟩ := ih (processOne env true st x).2.2
      (S ++ okKeys (processOne env true st x).2.1) hinv' hS' hsplit.2
    constructor
    · intro p hp hpt
      simp only [runPass, List.mem_cons] at hp
      rcases hp with hp | hp
      · rw [hp] at hpt ⊢
        simp only at hpt ⊢
        rw [hpt] at *
        cases hg : recGet st.taskIdMap t.parentId.jsKey with
        | none => simp [processOne, hg]
        | some pid => exact absurd (hinv _ (recGet_mem_keys hg)) hS
      · exact ih1 p hp hpt
    · intro e he
      simp only [runPass, List.mem_append] at he
      rcases he with he | he
      · intro het
        rcases processOne_event_facts he with ⟨h1, _⟩
        have hxt : x = t := by rw [← h1, het]
        rw [hxt] at he
        cases hg : recGet st.taskIdMap t.parentId.jsKey with
        | none => rw [show processOne env true st t = (Outcome.skippedMissingParent, [], st) by
                    simp [processOne, hg]] at he; simp at he
        | some pid => exact absurd (hinv _ (recGet_mem_keys hg)) hS
      · exact ih2 e he

/-- Claim C3: a child whose parent local id is not a key of the map when it
is processed yields SkippedMissingParent with no create call (part 1); at run
level, any child whose declared parent local id is never successfully created
yields SkippedMissingParent and no create call (part 2) — which covers in
particular a parent absent from the batch (part 3) and a parent all of whose
attempts failed (part 4); and the run is a single ordered pass over roots
then children with no reordering or retry (part 5). -/
theorem missing_parent_always_skipped :
    (∀ (env : ImportEnv) (st : RunState) (t : Task),
      recGet st.taskIdMap t.parentId.jsKey = Option.none →
      processOne env true st t = (Outcome.skippedMissingParent, [], st)) ∧
    (∀ (env : ImportEnv) (tasks : List Task) (t : Task),
      t.parentId ≠ JVal.jnull →
      t.parentId.jsKey ∉ okKeys ((runImport env tasks).events) →
      (∀ p ∈ (runImport env tasks).outcomes, p.1 = t → p.2 = Outcome.skippedMissingParent) ∧
      (∀ e ∈ (runImport env tasks).events, e.task ≠ t)) ∧
    (∀ (env : ImportEnv) (tasks : List Task) (k : String),
      k ∉ tasks.map (fun x => x.id.jsKey) → k ∉ okKeys ((runImport env tasks).events)) ∧
    (∀ (env : ImportEnv) (tasks : List Task) (k : String),
      (∀ e ∈ (runImport env tasks).events, e.task.id.jsKey = k →
        ∃ er, e.res = CreateRes.err er) →
      k ∉ okKeys ((runImport env tasks).events)) ∧
    (∀ (env : ImportEnv) (tasks : List Task),
      (runImport env tasks).outcomes.map Prod.fst
        = (groupTasksByHierarchy tasks).parentTasks
          ++ (groupTasksByHierarchy tasks).childTasks) := by
  refine ⟨?_, ?_, ?_, ?_, ?_⟩
  · intro env st t h
    simp [processOne, h]
  · intro env tasks t hnull hok
    have hroot : ∀ x ∈ (groupTasksByHierarchy tasks).parentTasks, x.parentId = JVal.jnull := by
      intro x hx
      simp only [groupTasksByHierarchy, List.mem_filter, decide_eq_true_eq] at hx
      exact hx.2
    have hok2 : t.parentId.jsKey ∉ okKeys (runPass env false initState
        (groupTasksByHierarchy tasks).parentTasks).2.1 ∧
      t.parentId.jsKey ∉ okKeys (runPass env true
        (runPass env false initState (groupTasksByHierarchy tasks).parentTasks).2.2
        (groupTasksByHierarchy tasks).childTasks).2.1 := by
      simp only [runImport, okKeys_append, List.mem_append, not_or] at hok
      exact hok
    have hbase := runPass_parentSeen env false (groupTasksByHierarchy tasks).parentTasks
      initState [] (by simp [initState])
    have hinv : ∀ k ∈ ((runPass env false initState
        (groupTasksByHierarchy tasks).parentTasks).2.2.taskIdMap.map Prod.fst),
        k ∈ okKeys (runPass env false initState
          (groupTasksByHierarchy tasks).parentTasks).2.1 := by
      intro k hk
      have := hbase.2 k hk
      simpa using this
    obtain ⟨hskip, hev⟩ := runPass_skip_unseen env (groupTasksByHierarchy tasks).childTasks t
      (runPass env false initState (groupTasksByHierarchy tasks).parentTasks).2.2
      (okKeys (runPass env false initState (groupTasksByHierarchy tasks).parentTasks).2.1)
      hinv hok2.1 hok2.2
    constructor
    · intro p hp hpt
      simp only [runImport, List.mem_append] at hp
      rcases hp with hp | hp
      · have hp1 : p.1 ∈ (groupTasksByHierarchy tasks).parentTasks := by
          rw [← runPass_fst env false (groupTasksByHierarchy tasks).parentTasks initState]
          exact List.mem_map_of_mem Prod.fst hp
        exact absurd (hpt ▸ hroot p.1 hp1) hnull
      · exact hskip p hp hpt
    · intro e he
      simp only [runImport, List.mem_append] at he
      rcases he with he | he
      · intro het
        have h1 := (runPass_event_facts env false (groupTasksByHierarchy tasks).parentTasks
          initState e he).1
        exact absurd (het ▸ hroot e.task h1) hnull
      · exact hev e he
  · intro env tasks k hnb hk
    obtain ⟨e, he, hkey, r, hres⟩ := okKeys_mem _ hk
    have hmem : e.task ∈ tasks := by
      simp only [runImport, List.mem_append] at he
      rcases he with he | he
      · have := (runPass_event_facts env false (groupTasksByHierarchy tasks).parentTasks
          initState e he).1
        simp only [groupTasksByHierarchy, List.mem_filter] at this
        exact this.1
      · have := (runPass_event_facts env true (groupTasksByHierarchy tasks).childTasks
          (runPass env false initState (groupTasksByHierarchy tasks).parentTasks).2.2 e he).1
        simp only [groupTasksByHierarchy, List.mem_filter] at this
        exact this.1
    exact hnb (hkey ▸ List.mem_map_of_mem (fun x => x.id.jsKey) hmem)
  · intro env tasks k hall hk
    obtain ⟨e, he, hkey, r, hres⟩ := okKeys_mem _ hk
    obtain ⟨er, herr⟩ := hall e he hkey
    rw [herr] at hres
    exact CreateRes.noConfusion hres
  · intro env tasks
    simp only [runImport, List.map_append, runPass_fst]

/-- Concrete setup for the C3 witness: every create call fails, so the child
of root A has a parent that is in the batch but whose creation failed. -/
def envC3 : ImportEnv :=
  { stateMapping := [("backlog", "s1"), ("to_do", "s2")]
    fallbackLiteral := false
    create := fun _ => CreateRes.err CreateErr.other }

/-- Root task of the C3 witness batch; its create call fails. -/
def rootC3 : Task :=
  { id := JVal.jstr "A", name := JVal.jstr "NA", status := JVal.jstr "taches en planning"
    dueDate := JVal.jnull, startDate := JVal.jnull, parentId := JVal.jnull
    assignees := [], priority := JVal.jnull, timeEstimated := JVal.jnull }

/-- Child of root A in the C3 witness batch: its parent is in the batch but
was never successfully created. -/
def childC3 : Task :=
  { id := JVal.jstr "B", name := JVal.jstr "NB", status := JVal.jstr "taches à completer"
    dueDate := JVal.jnull, startDate := JVal.jnull, parentId := JVal.jstr "A"
    assignees := [], priority := JVal.jnull, timeEstimated := JVal.jnull }

/-- Witness for C3 at the concrete failed-parent child: root A's create call
failed, so its child B's outcome entry in the run is SkippedMissingParent. -/
theorem missing_parent_always_skipped_witness :
    ((runImport envC3 [rootC3, childC3]).outcomes.getD 1
      (childC3, Outcome.skippedNoState)).2 = Outcome.skippedMissingParent :=
  (missing_parent_always_skipped.2.1 envC3 [rootC3, childC3] childC3
    (by decide) (by decide)).1
    ((runImport envC3 [rootC3, childC3]).outcomes.getD 1 (childC3, Outcome.skippedNoState))
    (by decide) (by decide)

/-- Claim C6: the pass always records the current record's outcome and moves
on to the rest; a failed create leaves taskIdMap, the created summary and
thus all previously created issues untouched, and the summary only ever
grows (no rollback). -/
theorem failure_isolation :
    ∀ (env : ImportEnv) (ic : Bool) (st : RunState) (t : Task) (ts : List Task) (e : CreateErr),
      (runPass env ic st (t :: ts)).1
        = (t, (processOne env ic st t).1) :: (runPass env ic (processOne env ic st t).2.2 ts).1 ∧
      ((processOne env ic st t).1 = Outcome.failed e →
        (processOne env ic st t).2.2.taskIdMap = st.taskIdMap ∧
        (processOne env ic st t).2.2.createdTasks = st.createdTasks ∧
        (processOne env ic st t).2.2.calls = st.calls + 1) ∧
      (∃ xs, (runPass env ic st (t :: ts)).2.2.createdTasks = st.createdTasks ++ xs) := by
  intro env ic st t ts e
  refine ⟨by simp [runPass], fun hf => ?_, ?_⟩
  · obtain ⟨h1, _⟩ := processOne_failed hf
    rw [h1]
    exact ⟨rfl, rfl, rfl⟩
  · obtain ⟨xs1, hx1⟩ := processOne_created_mono env ic st t
    obtain ⟨xs2, hx2⟩ := runPass_created_mono env ic ts (processOne env ic st t).2.2
    exact ⟨xs1 ++ xs2, by simp [runPass, hx2, hx1, List.append_assoc]⟩

/-- Concrete setup for the C6 witness: every create call fails. -/
def envC6 : ImportEnv :=
  { stateMapping := [("backlog", "s1")]
    fallbackLiteral := false
    create := fun _ => CreateRes.err CreateErr.other }

/-- Root task of the C6 witness. -/
def taskC6 : Task :=
  { id := JVal.jstr "A", name := JVal.jstr "NA", status := JVal.jstr "taches en planning"
    dueDate := JVal.jnull, startDate := JVal.jnull, parentId := JVal.jnull
    assignees := [], priority := JVal.jnull, timeEstimated := JVal.jnull }

/-- Witness for C6 at a concretely failing create call. -/
theorem failure_isolation_witness :
    (processOne envC6 false initState taskC6).1 = Outcome.failed CreateErr.other ∧
    (processOne envC6 false initState taskC6).2.2.taskIdMap = initState.taskIdMap :=
  ⟨by decide,
   ((failure_isolation envC6 false initState taskC6 [] CreateErr.other).2.1 (by decide)).1⟩

/-- A pass over concatenated task lists is the pass over the first followed
by the pass over the second from the reached state. -/
theorem runPass_append (env : ImportEnv) (ic : Bool) (a b : List Task) :
    ∀ st, runPass env ic st (a ++ b)
      = ((runPass env ic st a).1 ++ (runPass env ic (runPass env ic st a).2.2 b).1,
         (runPass env ic st a).2.1 ++ (runPass env ic (runPass env ic st a).2.2 b).2.1,
         (runPass env ic (runPass env ic st a).2.2 b).2.2) := by
  induction a with
  | nil => intro st; simp [runPass]
  | cons x a ih => intro st; simp [runPass, ih, List.append_assoc]

/-- A loop body over a task with a different id key preserves an existing
map binding (the JS object write cannot shadow a different key). -/
theorem processOne_lookup_preserved {env : ImportEnv} {st : RunState} {x : Task}
    {key rid : String} (hx : x.id.jsKey ≠ key) (ic : Bool)
    (h : recGet st.taskIdMap key = some rid) :
    recGet (processOne env ic st x).2.2.taskIdMap key = some rid := by
  rcases processOne_cases env ic st x with ⟨hh, _⟩ | hh | ⟨par, r, hh, _⟩ | ⟨par, er, hh, _⟩ <;>
    rw [hh] <;> simp only []
  · exact h
  · exact h
  · have hb : (x.id.jsKey == key) = false := beq_eq_false_iff_ne.mpr hx
    simp [recGet, List.find?, hb]
    simpa [recGet] using h
  · exact h

/-- A pass over tasks whose id keys all differ from an existing binding's key
preserves that binding. -/
theorem runPass_lookup_preserved (env : ImportEnv) (l2 : List Task) {key rid : String}
    (hl2 : ∀ x ∈ l2, x.id.jsKey ≠ key) :
    ∀ st, recGet st.taskIdMap key = some rid →
      recGet (runPass env true st l2).2.2.taskIdMap key = some rid := by
  induction l2 with
  | nil => intro st h; simpa [runPass] using h
  | cons x l2 ih =>
    intro st h
    simp only [runPass]
    exact ih (fun y hy => hl2 y (List.mem_cons_of_mem x hy)) _
      (processOne_lookup_preserved (hl2 x (List.mem_cons_self x l2)) true h)

/-- A child whose parent lookup, state resolution and create call all succeed
is created exactly as attemptCreate describes. -/
theorem processOne_child_attempt {env : ImportEnv} {st : RunState} {c : Task}
    {pid sid r : String}
    (hlook : recGet st.taskIdMap c.parentId.jsKey = some pid) (hpid : pid ≠ "")
    (hsid : resolveState env c.status = some sid)
    (hok : env.create st.calls = CreateRes.ok r) :
    processOne env true st c =
      (Outcome.created r,
       [{ task := c, isChild := true, parent := some pid, res := CreateRes.ok r }],
       { calls := st.calls + 1, taskIdMap := (c.id.jsKey, r) :: st.taskIdMap,
         createdTasks := st.createdTasks ++ [(c.name.jsKey, r)] }) := by
  simp [processOne, hlook, hpid, hsid, attemptCreate, hok]

/-- Claim C10: when a child is successfully created, its own local id is
recorded in the map, so a later child of the same pass whose parent reference
names that child (and is not shadowed in between) is itself created with the
earlier child's remote id as parent, rather than SkippedMissingParent. -/
theorem child_of_child_created :
    ∀ (env : ImportEnv) (st : RunState) (c1 c2 : Task) (l2 l3 : List Task) (rid : String),
      (∀ n, ∃ r, env.create n = CreateRes.ok r ∧ r ≠ "") →
      (processOne env true st c1).1 = Outcome.created rid →
      c2.parentId.jsKey = c1.id.jsKey →
      (∀ x ∈ l2, x.id.jsKey ≠ c1.id.jsKey) →
      (∃ sid, resolveState env c2.status = some sid) →
      ∃ r, r ≠ "" ∧
        (runPass env true st (c1 :: (l2 ++ c2 :: l3))).1.get? (l2.length + 1)
          = some (c2, Outcome.created r) ∧
        ∃ e ∈ (runPass env true st (c1 :: (l2 ++ c2 :: l3))).2.1,
          e.task = c2 ∧ e.parent = some rid ∧ e.res = CreateRes.ok r := by
  intro env st c1 c2 l2 l3 rid hall hc1 hkey hl2 hstate
  -- the successful creation of c1 put its id key in the map
  obtain ⟨st1eq, hrid⟩ :
      (processOne env true st c1).2.2.taskIdMap
        = (c1.id.jsKey, rid) :: st.taskIdMap ∧ rid ≠ "" := by
    rcases processOne_cases env true st c1 with ⟨hh, _⟩ | hh | ⟨par, r, hh, hcr, _⟩ |
      ⟨par, er, hh, _⟩ <;> rw [hh] at hc1 <;> simp only [] at hc1
    · cases hc1
    · cases hc1
    · obtain ⟨r2, hok, hne⟩ := hall st.calls
      have hrr : r = rid := by cases hc1; rfl
      have hr2 : r = r2 := by
        have h12 : CreateRes.ok r = CreateRes.ok r2 := by rw [← hcr]; exact hok
        cases h12; rfl
      constructor
      · rw [hh]; simp only []; rw [hrr]
      · rw [← hrr, hr2]; exact hne
    · cases hc1
  have hlook1 : recGet (processOne env true st c1).2.2.taskIdMap c1.id.jsKey = some rid := by
    rw [st1eq]
    simp [recGet, List.find?]
  -- the binding survives the records between c1 and c2
  have hlook2 : recGet (runPass env true (processOne env true st c1).2.2 l2).2.2.taskIdMap
      c1.id.jsKey = some rid :=
    runPass_lookup_preserved env l2 hl2 _ hlook1
  obtain ⟨sid, hsid⟩ := hstate
  obtain ⟨r2, hok2, hne2⟩ :=
    hall (runPass env true (processOne env true st c1).2.2 l2).2.2.calls
  -- c2 is therefore attempted with parent rid and created
  have hlook2' : recGet (runPass env true (processOne env true st c1).2.2 l2).2.2.taskIdMap
      c2.parentId.jsKey = some rid := by rw [hkey]; exact hlook2
  have hproc2 := processOne_child_attempt hlook2' hrid hsid hok2
  refine ⟨r2, hne2, ?_, ?_⟩
  · have hlen : (runPass env true (processOne env true st c1).2.2 l2).1.length = l2.length := by
      have := congrArg List.length (runPass_fst env true l2 (processOne env true st c1).2.2)
      simpa using this
    simp only [runPass, runPass_append]
    rw [List.get?_cons_succ, List.get?_append_right (by omega)]
    simp [hlen, hproc2, runPass]
  · refine ⟨{ task := c2, isChild := true, parent := some rid, res := CreateRes.ok r2 }, ?_,
      rfl, rfl, rfl⟩
    simp only [runPass, runPass_append, List.mem_append]
    right; right; left
    rw [hproc2]
    simp

/-- Concrete environment for the C10 witness: every create call succeeds. -/
def envC10 : ImportEnv :=
  { stateMapping := [("backlog", "s1"), ("to_do", "s2")]
    fallbackLiteral := false
    create := fun _ => CreateRes.ok "X" }

/-- Run state for the C10 witness, with root A already created. -/
def stC10 : RunState := { calls := 1, taskIdMap := [("A", "rA")], createdTasks := [] }

/-- First child of the C10 witness, a child of root A. -/
def c1C10 : Task :=
  { id := JVal.jstr "B", name := JVal.jstr "NB", status := JVal.jstr "taches à completer"
    dueDate := JVal.jnull, startDate := JVal.jnull, parentId := JVal.jstr "A"
    assignees := [], priority := JVal.jnull, timeEstimated := JVal.jnull }

/-- Second child of the C10 witness, a child of the first child. -/
def c2C10 : Task :=
  { id := JVal.jstr "C", name := JVal.jstr "NC", status := JVal.jstr "taches à completer"
    dueDate := JVal.jnull, startDate := JVal.jnull, parentId := JVal.jstr "B"
    assignees := [], priority := JVal.jnull, timeEstimated := JVal.jnull }

/-- Witness for C10 at a concrete chained pair of children. -/
theorem child_of_child_created_witness :
    ∃ r, r ≠ "" ∧
      (runPass envC10 true stC10 (c1C10 :: (([] : List Task) ++ c2C10 :: []))).1.get?
          (List.length ([] : List Task) + 1)
        = some (c2C10, Outcome.created r) ∧
      ∃ e ∈ (runPass envC10 true stC10 (c1C10 :: (([] : List Task) ++ c2C10 :: []))).2.1,
        e.task = c2C10 ∧ e.parent = some "X" ∧ e.res = CreateRes.ok r :=
  child_of_child_created envC10 stC10 c1C10 c2C10 [] [] "X"
    (fun n => ⟨"X", rfl, by decide⟩) (by decide) (by decide)
    (fun x hx => absurd hx (List.not_mem_nil x)) ⟨"s2", by decide⟩

/-- Concrete environment for the C4 counterexample: the first create call is
rate limited with a 2 second retry hint, later calls would succeed. -/
def envC4 : ImportEnv :=
  { stateMapping := [("backlog", "s1")]
    fallbackLiteral := false
    create := fun n =>
      match n with
      | 0 => CreateRes.err (CreateErr.rateLimited (some "2"))
      | _ => CreateRes.ok "r" }

/-- Root task of the C4 counterexample batch. -/
def taskC4 : Task :=
  { id := JVal.jstr "A", name := JVal.jstr "NA", status := JVal.jstr "taches en planning"
    dueDate := JVal.jnull, startDate := JVal.jnull, parentId := JVal.jnull
    assignees := [], priority := JVal.jnull, timeEstimated := JVal.jnull }

/-- Claim C4, counterexample: a create call hit by a rate-limit signal is not
retried by the orchestrator: the record ends in Failed after exactly one
create call and one attempt event, even though a later call would succeed —
so a rate-limited create never reaches Success on a later attempt. -/
theorem create_rate_limited_not_retried_cex :
    (runImport envC4 [taskC4]).outcomes
      = [(taskC4, Outcome.failed (CreateErr.rateLimited (some "2")))] ∧
    (runImport envC4 [taskC4]).final.calls = 1 ∧
    (runImport envC4 [taskC4]).events.length = 1 := by
  refine ⟨by decide, by decide, by decide⟩

/-- One-step unfolding of the retry loop at positive fuel. -/
theorem delGo_succ (oracle : Nat → AttemptOutcome) (f r : Nat) (w : List Int) :
    delGo oracle (f + 1) r w =
      (match oracle r with
       | AttemptOutcome.ok => { attempts := r + 1, waits := w.reverse, success := true }
       | AttemptOutcome.rateLimited hdr =>
         if MAX_RETRIES ≤ r + 1 then { attempts := r + 1, waits := w.reverse, success := false }
         else delGo oracle f (r + 1) (waitMsOf hdr :: w)
       | AttemptOutcome.otherError =>
         { attempts := r + 1, waits := w.reverse, success := false }) := rfl

/-- Complete characterization of the per-issue delete retry loop: at most
three attempts, a wait of waitMsOf before each retry, stop on the first
success or first non-rate-limit error, give up after the third rate limit. -/
theorem deleteOneIssue_spec (oracle : Nat → AttemptOutcome) :
    deleteOneIssue oracle =
      (match oracle 0 with
       | AttemptOutcome.ok => { attempts := 1, waits := [], success := true }
       | AttemptOutcome.otherError => { attempts := 1, waits := [], success := false }
       | AttemptOutcome.rateLimited h0 =>
         match oracle 1 with
         | AttemptOutcome.ok => { attempts := 2, waits := [waitMsOf h0], success := true }
         | AttemptOutcome.otherError => { attempts := 2, waits := [waitMsOf h0], success := false }
         | AttemptOutcome.rateLimited h1 =>
           match oracle 2 with
           | AttemptOutcome.ok =>
             { attempts := 3, waits := [waitMsOf h0, waitMsOf h1], success := true }
           | AttemptOutcome.rateLimited _ =>
             { attempts := 3, waits := [waitMsOf h0, waitMsOf h1], success := false }
           | AttemptOutcome.otherError =>
             { attempts := 3, waits := [waitMsOf h0, waitMsOf h1], success := false }) := by
  rcases h0 : oracle 0 with _ | hdr0 | _
  · simp [deleteOneIssue, delGo, MAX_RETRIES, h0]
  · rcases h1 : oracle 1 with _ | hdr1 | _
    · simp [deleteOneIssue, delGo, MAX_RETRIES, h0, h1]
    · rcases h2 : oracle 2 with _ | hdr2 | _ <;>
        simp [deleteOneIssue, delGo, MAX_RETRIES, h0, h1, h2]
    · simp [deleteOneIssue, delGo, MAX_RETRIES, h0, h1]
  · simp [deleteOneIssue, delGo, MAX_RETRIES, h0]

/-- The delete retry oracle of the C4 scenario: two rate limits with a 2
second hint, then success. -/
def scenarioOracle : Nat → AttemptOutcome
  | 0 => AttemptOutcome.rateLimited (some "2")
  | 1 => AttemptOutcome.rateLimited (some "2")
  | _ => AttemptOutcome.ok

/-- Claim C4 (amended): the bounded rate-limit retry policy belongs to the
delete path: at most MAX_RETRIES attempts per issue; every wait is the valid
parsed retry hint (else the 5 second default) plus the 1 second buffer; the
2-second-hint-twice-then-success scenario makes 3 attempts with two 3000 ms
waits and ends in success with no failure. Create calls are never retried:
the orchestrator makes at most one create call per record. -/
theorem retry_policy_delete_only :
    (∀ oracle, (deleteOneIssue oracle).attempts ≤ MAX_RETRIES) ∧
    waitMsOf (some "2") = 3000 ∧
    waitMsOf Option.none = 6000 ∧
    waitMsOf (some "") = 6000 ∧
    waitMsOf (some "abc") = 6000 ∧
    (∀ oracle i, i < (deleteOneIssue oracle).waits.length →
      ∃ h, oracle i = AttemptOutcome.rateLimited h ∧
        (deleteOneIssue oracle).waits.getD i 0 = waitMsOf h) ∧
    deleteOneIssue scenarioOracle
      = { attempts := 3, waits := [3000, 3000], success := true } ∧
    (∀ (env : ImportEnv) (ic : Bool) (st : RunState) (t : Task),
      (processOne env ic st t).2.2.calls ≤ st.calls + 1) := by
  refine ⟨?_, by decide, by decide, by decide, by decide, ?_, by decide, ?_⟩
  · intro oracle
    rw [deleteOneIssue_spec]
    rcases oracle 0 with _ | hdr0 | _ <;> try simp [MAX_RETRIES]
    rcases oracle 1 with _ | hdr1 | _ <;> try simp [MAX_RETRIES]
    rcases oracle 2 with _ | hdr2 | _ <;> simp [MAX_RETRIES]
  · intro oracle i hi
    rw [deleteOneIssue_spec] at hi ⊢
    rcases h0 : oracle 0 with _ | hdr0 | _
    · simp only [h0] at hi; simp at hi
    · simp only [h0] at hi ⊢
      rcases h1 : oracle 1 with _ | hdr1 | _
      · simp only [h1] at hi ⊢
        rcases i with _ | i
        · exact ⟨hdr0, h0, by simp⟩
        · simp only [List.length_cons, List.length_nil] at hi; omega
      · simp only [h1] at hi ⊢
        rcases h2 : oracle 2 with _ | hdr2 | _ <;> simp only [h2] at hi ⊢ <;>
          rcases i with _ | _ | i <;>
          first
            | exact ⟨hdr0, h0, by simp⟩
            | exact ⟨hdr1, h1, by simp⟩
            | (simp only [List.length_cons, List.length_nil] at hi; omega)
      · simp only [h1] at hi ⊢
        rcases i with _ | i
        · exact ⟨hdr0, h0, by simp⟩
        · simp only [List.length_cons, List.length_nil] at hi; omega
    · simp only [h0] at hi; simp at hi
  · intro env ic st t
    exact processOne_calls_le env ic st t

/-- Witness for the amended C4 theorem at the concrete scenario oracle. -/
theorem retry_policy_delete_only_witness :
    ∃ h, scenarioOracle 0 = AttemptOutcome.rateLimited h ∧
      (deleteOneIssue scenarioOracle).waits.getD 0 0 = waitMsOf h :=
  retry_policy_delete_only.2.2.2.2.2.1 scenarioOracle 0 (by decide)

/-- Claim C5: a mutating call failing with a non-rate-limit error is never
retried: the delete loop stops after exactly one attempt with no wait and no
success, and a failed create call consumes exactly one call and propagates
the call's own error as the record's terminal Failed outcome. -/
theorem non_rate_limit_no_retry :
    (∀ oracle, oracle 0 = AttemptOutcome.otherError →
      deleteOneIssue oracle = { attempts := 1, waits := [], success := false }) ∧
    (∀ (env : ImportEnv) (ic : Bool) (st : RunState) (t : Task) (e : CreateErr),
      (processOne env ic st t).1 = Outcome.failed e →
      (processOne env ic st t).2.2 = { st with calls := st.calls + 1 } ∧
      env.create st.calls = CreateRes.err e) := by
  constructor
  · intro oracle h0
    simp [deleteOneIssue, delGo, MAX_RETRIES, h0]
  · intro env ic st t e h
    exact processOne_failed h

/-- Concrete oracle for the C5 witness: every delete attempt fails with a
non-rate-limit error. -/
def otherOracle : Nat → AttemptOutcome := fun _ => AttemptOutcome.otherError

/-- Concrete environment for the C5 witness: every create call fails with a
non-rate-limit error. -/
def envC5 : ImportEnv :=
  { stateMapping := [("backlog", "s1")]
    fallbackLiteral := false
    create := fun _ => CreateRes.err CreateErr.other }

/-- Root task of the C5 witness. -/
def taskC5 : Task :=
  { id := JVal.jstr "A", name := JVal.jstr "NA", status := JVal.jstr "taches en planning"
    dueDate := JVal.jnull, startDate := JVal.jnull, parentId := JVal.jnull
    assignees := [], priority := JVal.jnull, timeEstimated := JVal.jnull }

/-- Witness for C5 at concrete non-rate-limit failures. -/
theorem non_rate_limit_no_retry_witness :
    deleteOneIssue otherOracle = { attempts := 1, waits := [], success := false } ∧
    (processOne envC5 false initState taskC5).2.2
      = { initState with calls := initState.calls + 1 } :=
  ⟨non_rate_limit_no_retry.1 otherOracle rfl,
   (non_rate_limit_no_retry.2 envC5 false initState taskC5 CreateErr.other (by decide)).1⟩

end Chrono
